import Mathlib

/-!
Shallow embedding of the data-modeling core of the TBone repository
(`tbone/data/models.py`): schema construction in `ModelMeta.__new__`,
model options, the serialization pipeline of `ModelSerializer`
(`_execute`, `_serialize`, `to_data`, `to_python`), and the instance
operations of `Model` (`import_data`, `_convert`, `_validate`,
`validate`, `__iter__`, `items`, `__eq__`).

Python dictionaries are embedded as association lists with the
CPython ordering semantics: assigning to an existing key replaces the
value in place (the key keeps its original position), assigning a new
key appends it at the end.  Python values are embedded as `PyValue`,
with Python truthiness as `truthy`.  A callable that may be either a
plain function or a coroutine function is embedded as `Callable`;
calling a coroutine function without awaiting yields an opaque
`PyValue.coroutine` object, and `await` applied to the result of a
plain call fails with a TypeError, exactly as in CPython.

The field class (`tbone/data/fields.py`) is an external collaborator:
fields enter the model layer only through their `to_python`, `to_data`,
`validate` and `_projection` members, so a field is embedded as a
record of those four members.  The `_projection` attribute is `None`
for never-include, `True` for always-include, and any other value
(the default) for include-if-present; it is embedded as `Option Bool`
(`none` = never, `some true` = always, `some false` = if-present),
which is exactly the distinction the source tests with
`_projection != None` and `_projection == True`.
-/

set_option autoImplicit false

/-- Embedded Python values. -/
inductive PyValue where
  | none
  | bool (b : Bool)
  | int (n : Int)
  | str (s : String)
  | dict (entries : List (String × PyValue))
  | coroutine
  deriving Repr

/-- Python truthiness (`bool(v)`). -/
def truthy : PyValue → Bool
  | .none => false
  | .bool b => b
  | .int n => n != 0
  | .str s => !s.isEmpty
  | .dict entries => !entries.isEmpty
  | .coroutine => true

/-- The Python test `v is None`. -/
def isNone : PyValue → Bool
  | .none => true
  | _ => false

/-- The Python test `isinstance(v, dict)`. -/
def isDict : PyValue → Bool
  | .dict _ => true
  | _ => false

/-- Python value equality `==` on the embedded values (structural). -/
def pyBeq : PyValue → PyValue → Bool
  | .none, .none => true
  | .bool a, .bool b => a == b
  | .int a, .int b => a == b
  | .str a, .str b => a == b
  | .coroutine, .coroutine => true
  | .dict a, .dict b => pyBeqEntries a b
  | _, _ => false
where
  pyBeqEntries : List (String × PyValue) → List (String × PyValue) → Bool
  | [], [] => true
  | (k₁, v₁) :: r₁, (k₂, v₂) :: r₂ => k₁ == k₂ && pyBeq v₁ v₂ && pyBeqEntries r₁ r₂
  | _, _ => false

/-- A Python dict with string keys, as an ordered association list. -/
abbrev PyDict (α : Type) : Type := List (String × α)

/-- Keyed access into the association list: the value at the first
entry whose key matches, as CPython's dict lookup. -/
def dictFind {α : Type} (d : PyDict α) (k : String) : Option α :=
  match d with
  | [] => none
  | (k', v) :: rest => if k' == k then some v else dictFind rest k

/-- Python `d.get(k)` with its default of `None`. -/
def dictGet (d : PyDict PyValue) (k : String) : PyValue :=
  (dictFind d k).getD .none

/-- Python `d[k] = v` (also one step of `dict.update` / `OrderedDict.update`):
an existing key keeps its position and only its value is replaced; a new key
is appended at the end. -/
def odUpdate {α : Type} (d : PyDict α) (kv : String × α) : PyDict α :=
  if d.any (fun p => p.1 == kv.1) then
    d.map (fun p => if p.1 == kv.1 then (p.1, kv.2) else p)
  else
    d ++ [kv]

/-- Python `d.update(other)`: assign every entry of `other` in order. -/
def dictUpdateAll {α : Type} (d : PyDict α) (other : PyDict α) : PyDict α :=
  other.foldl odUpdate d

/-- A Python callable that is either a plain function or a coroutine
function (`asyncio.iscoroutinefunction` distinguishes the two). -/
inductive Callable where
  | sync (f : PyValue → PyValue)
  | async (f : PyValue → PyValue)

/-- `ModelSerializer._execute`: if the callable is a coroutine function,
call it and await the result; otherwise just call it.  Both kinds
succeed and produce the callable's value. -/
def _execute : Callable → PyValue → PyValue
  | .sync f, v => f v
  | .async f, v => f v

/-- A direct (non-awaited) Python call of the callable, as performed by
`Model._convert`.  Calling a coroutine function without awaiting does not
run it: it returns an opaque coroutine object. -/
def directCall : Callable → PyValue → PyValue
  | .sync f, v => f v
  | .async f, v => f v |> fun _ => PyValue.coroutine

/-- A field of the schema, seen through the interface the model layer
uses: per-direction conversion callables, a validator that raises on
invalid input, and the `_projection` attribute
(`none` = never, `some true` = always, `some false` = if-present). -/
structure BaseField where
  to_python : Callable
  to_data : Callable
  validate : PyValue → Except String Unit
  projection : Option Bool

/-- An export method registered on a model class; it receives the
instance (here: its `_data` store) and is either a plain function or a
coroutine function. -/
inductive ExportFn where
  | sync (f : PyDict PyValue → PyValue)
  | async (f : PyDict PyValue → PyValue)

/-- Whether an export method is a coroutine function. -/
def ExportFn.isAsync : ExportFn → Bool
  | .sync _ => false
  | .async _ => true

/-- The Python expression `await func(self)` used verbatim at the export
step of `ModelSerializer._serialize`: awaiting the result of calling a
plain function raises a TypeError, while a coroutine function's call is
awaited to its value.  This is a direct `await`, not `_execute`. -/
def awaitDirectCall : ExportFn → PyDict PyValue → Except String PyValue
  | .sync _, _ => .error "TypeError: object is not awaitable"
  | .async f, d => .ok (f d)

/-- The field-map half of `ModelMeta.__new__`: start from an empty
ordered dict, fold the `_fields` of the bases in reverse base order
through `OrderedDict.update`, then assign each locally declared field
in declaration order.  (`deepcopy` of the inherited entries is the
identity on these pure values.) -/
def buildFields (baseFieldMaps : List (PyDict BaseField)) (localFields : PyDict BaseField) :
    PyDict BaseField :=
  dictUpdateAll (baseFieldMaps.reverse.foldl dictUpdateAll []) localFields

/-- The export-map half of `ModelMeta.__new__`, built the same way from
the bases' `_exports` and the locally decorated export methods. -/
def buildExports (baseExportMaps : List (PyDict ExportFn)) (localExports : PyDict ExportFn) :
    PyDict ExportFn :=
  dictUpdateAll (baseExportMaps.reverse.foldl dictUpdateAll []) localExports

/-- `ModelOptions.__init__`: the class-level defaults are
`name = None` and `namespace = None`; when a `Meta` block is given, every
public attribute of the block (no `_` prefix; `dir` enumerates them) is
copied onto the options by `setattr`.  The options are embedded as the
resulting attribute dictionary. -/
def modelOptionsInit (meta : Option (PyDict PyValue)) : PyDict PyValue :=
  let defaults : PyDict PyValue := [("name", .none), ("namespace", .none)]
  match meta with
  | .none => defaults
  | .some attrs => dictUpdateAll defaults attrs

/-- A model instance: the per-type schema (`_fields` and `_exports`,
shared by all instances of the type) together with the per-instance
`_data` store. -/
structure ModelInst where
  _fields : PyDict BaseField
  _exports : PyDict ExportFn
  _data : PyDict PyValue

/-- The field loop of `ModelSerializer._serialize`: for each field in
schema order, convert the stored raw value through `_execute` on
`to_python` (native) or `to_data` (not native), then apply the
projection conditions exactly as written in the source:
`if field_data and field._projection != None` include the value,
`elif field_data is None and field._projection == True` include `None`,
else leave the key out. -/
def serializeFieldsAux (fields : PyDict BaseField) (data : PyDict PyValue) (native : Bool)
    (out : PyDict PyValue) : PyDict PyValue :=
  match fields with
  | [] => out
  | (field_name, field) :: rest =>
    let raw_data := dictGet data field_name
    let field_data := _execute (if native then field.to_python else field.to_data) raw_data
    let out' :=
      if truthy field_data && field.projection.isSome then
        odUpdate out (field_name, field_data)
      else if isNone field_data && (field.projection == some true) then
        odUpdate out (field_name, PyValue.none)
      else out
    serializeFieldsAux rest data native out'

/-- The field loop of `_serialize` started on the fresh `data = {}`. -/
def serializeFields (fields : PyDict BaseField) (data : PyDict PyValue) (native : Bool) :
    PyDict PyValue :=
  serializeFieldsAux fields data native []

/-- The export loop of `_serialize`: for each export method in order,
`data[name] = await func(self)`; a raised TypeError (plain function
awaited) propagates and aborts the serialization. -/
def runExports (exports : PyDict ExportFn) (self : PyDict PyValue)
    (out : PyDict PyValue) : Except String (PyDict PyValue) :=
  match exports with
  | [] => .ok out
  | (name, func) :: rest =>
    match awaitDirectCall func self with
    | .error e => .error e
    | .ok v => runExports rest self (odUpdate out (name, v))

/-- `ModelSerializer._serialize`: run the field loop, then the export
loop, and return the assembled mapping. -/
def _serialize (m : ModelInst) (native : Bool) : Except String (PyDict PyValue) :=
  runExports m._exports m._data (serializeFields m._fields m._data native)

/-- `ModelSerializer.to_data` (serialize with data primitives). -/
def to_data (m : ModelInst) : Except String (PyDict PyValue) :=
  _serialize m false

/-- `ModelSerializer.to_python` (serialize with native values). -/
def to_python (m : ModelInst) : Except String (PyDict PyValue) :=
  _serialize m true

/-- `Model._convert`: build a fresh dict assigning, for every schema
field in order, the direct (non-awaited) call of its converter on
`data.get(name)`. -/
def _convert (fields : PyDict BaseField) (data : PyDict PyValue) (native : Bool) :
    PyDict PyValue :=
  fields.foldl
    (fun converted_data p =>
      odUpdate converted_data
        (p.1, directCall (if native then p.2.to_python else p.2.to_data) (dictGet data p.1)))
    []

/-- `Model.import_data`: reject a non-dict payload with a ValueError
before touching `_data`; otherwise merge the payload into `_data` with
`dict.update` and replace `_data` by its `_convert`-ed form.  The first
component of the result is the `_data` store after the call (unchanged
when the error is raised, since the raise precedes every mutation). -/
def import_data (fields : PyDict BaseField) (cur : PyDict PyValue) (payload : PyValue) :
    PyDict PyValue × Option String :=
  match payload with
  | .dict entries => (_convert fields (dictUpdateAll cur entries) true, .none)
  | _ => (cur, .some "Cannot import data not as dict")

/-- `Model._validate`: run `field.validate(data.get(name))` for every
schema field in order; a raised validation error propagates at once. -/
def _validate (fields : PyDict BaseField) (data : PyDict PyValue) : Except String Unit :=
  match fields with
  | [] => .ok ()
  | (name, field) :: rest =>
    match field.validate (dictGet data name) with
    | .error e => .error e
    | .ok _ => _validate rest data

/-- `Model.validate`: `_validate` on the instance's own data. -/
def validate (m : ModelInst) : Except String Unit :=
  _validate m._fields m._data

/-- `Model.__iter__`: the schema field names that have a key in `_data`,
in schema order. -/
def modelIter (m : ModelInst) : List String :=
  (m._fields.map Prod.fst).filter (fun k => (m._data.map Prod.fst).contains k)

/-- `Model.items`: the `(name, stored value)` pairs for the names
produced by iteration. -/
def modelItems (m : ModelInst) : PyDict PyValue :=
  (modelIter m).map (fun k => (k, dictGet m._data k))

/-- Modelled from the spec: the per-field descriptor installed by
`BaseField.add_to_class` (the field class is outside the sources at
hand), read through `getattr(instance, name)`: it yields the
instance's stored value for the field, `None` when the field has no
stored value. -/
def modelGetattr (m : ModelInst) (k : String) : PyValue :=
  dictGet m._data k

/-- `Model.__eq__` for two instances of the same concrete type (the
identity and type checks of the source precede this): for every name
produced by `self`'s iteration, compare `getattr(self, k)` with
`getattr(other, k)`; any mismatch yields `False`, otherwise `True`. -/
def modelEq (self other : ModelInst) : Bool :=
  (modelIter self).all (fun k => pyBeq (modelGetattr self k) (modelGetattr other k))

/-- Whether an `Except` result is a success. -/
def exceptOk {e a : Type} : Except e a → Bool
  | .ok _ => true
  | .error _ => false

/-- The inclusion decision the field loop of `_serialize` makes for one
field, written as the optional value bound to the field's key: the
converted value when it is truthy and `_projection` is not `None`,
an explicit `None` when the converted value is `None` and `_projection`
is `True`, and no entry at all otherwise. -/
def projectedEntry (native : Bool) (data : PyDict PyValue) (name : String)
    (field : BaseField) : Option PyValue :=
  let field_data := _execute (if native then field.to_python else field.to_data) (dictGet data name)
  if truthy field_data && field.projection.isSome then some field_data
  else if isNone field_data && (field.projection == some true) then some PyValue.none
  else none

/-! ## Concrete fields, exports and instances used as test inputs -/

/-- A callable returning its argument unchanged. -/
def idCallable : Callable := .sync (fun v => v)

/-- A plain field: identity conversions, no validation failure, and the
default include-if-present projection. -/
def plainField : BaseField :=
  { to_python := idCallable, to_data := idCallable,
    validate := fun _ => .ok (), projection := some false }

/-- A field like `plainField` but with `_projection = True`
(always include). -/
def alwaysField : BaseField :=
  { plainField with projection := some true }

/-- A field like `plainField` but with `_projection = None`
(never include). -/
def neverField : BaseField :=
  { plainField with projection := none }

/-- A field whose `to_data` conversion always yields the empty string —
a falsy value that is not `None` — and whose projection is
always-include. -/
def alwaysEmptyStrField : BaseField :=
  { to_python := idCallable, to_data := .sync (fun _ => .str ""),
    validate := fun _ => .ok (), projection := some true }

/-- A required field: validation raises (with the given message) when
the value under validation is `None`. -/
def requiredField (msg : String) : BaseField :=
  { to_python := idCallable, to_data := idCallable,
    validate := fun v => match v with
      | .none => .error msg
      | _ => .ok (),
    projection := some false }

/-- A field whose conversions are coroutine functions (both return the
stored value when awaited). -/
def asyncConvField : BaseField :=
  { to_python := .async (fun v => v), to_data := .async (fun v => v),
    validate := fun _ => .ok (), projection := some false }

/-- A schema with the two required fields of the validation-aggregation
scenario, attached to an instance with empty imported data. -/
def demoPerson : ModelInst :=
  { _fields := [("age", requiredField "age"), ("name", requiredField "name")],
    _exports := [], _data := [] }

/-- An instance whose type registers a single plain-function (non-async)
export method. -/
def demoSyncExportModel : ModelInst :=
  { _fields := [], _exports := [("info", .sync (fun _ => .str "sync result"))],
    _data := [] }

/-- An instance mixing a plain-function field conversion, a
coroutine-function field conversion, and a coroutine-function export. -/
def demoAsyncExportModel : ModelInst :=
  { _fields := [("a", plainField), ("b", asyncConvField)],
    _exports := [("info", .async (fun _ => .str "async result"))],
    _data := [("a", .int 1), ("b", .int 2)] }

/-- An instance with a never-projected field and a same-named
coroutine-function export returning a falsy value. -/
def demoExportOverlapModel : ModelInst :=
  { _fields := [("n", neverField)],
    _exports := [("n", .async (fun _ => .none))],
    _data := [("n", .str "stored")] }

/-- The serialized output of `demoExportOverlapModel` (either view). -/
def demoExportOverlapOut : PyDict PyValue := [("n", PyValue.none)]

/-- Schema of a single-field model used for the equality test. -/
def demoEqSchema : PyDict BaseField := [("name", plainField)]

/-- An instance of the `demoEqSchema` type with an empty data store
(the state of a freshly constructed model). -/
def demoEqEmpty : ModelInst :=
  { _fields := demoEqSchema, _exports := [], _data := [] }

/-- An instance of the `demoEqSchema` type holding a value for the
field (the state after importing data for it). -/
def demoEqFull : ModelInst :=
  { _fields := demoEqSchema, _exports := [], _data := [("name", .str "ron")] }

/-- Field map of a base class declaring fields `a`, `b` in that order. -/
def demoC4Base : PyDict BaseField :=
  buildFields [[]] [("a", plainField), ("b", plainField)]

/-- Field map of a class deriving from `demoC4Base` that declares a new
field `c` and then redefines the inherited field `b`. -/
def demoC4Derived : PyDict BaseField :=
  buildFields [demoC4Base] [("c", plainField), ("b", alwaysField)]

/-- A model with one plainly-projected field holding a truthy value and
one coroutine-function export under a distinct name. -/
def demoProjModel : ModelInst :=
  { _fields := [("nickname", plainField)],
    _exports := [("extra", .async (fun _ => .str "computed"))],
    _data := [("nickname", .str "ron")] }

/-- The native serialized output of `demoProjModel`. -/
def demoProjOut : PyDict PyValue :=
  [("nickname", .str "ron"), ("extra", .str "computed")]

/-- Public attributes of a `Meta` configuration block. -/
def demoMetaAttrs : PyDict PyValue :=
  [("name", .str "Person"), ("db_name", .str "persons")]

/-- Schema of a two-field model used for the import test. -/
def demoImportFields : PyDict BaseField :=
  [("age", plainField), ("name", plainField)]

/-- An import payload carrying one schema field and one unknown key. -/
def demoImportEntries : PyDict PyValue :=
  [("name", .str "ron"), ("extra", .int 7)]

/-! ## Helper lemmas on the embedded dict operations -/

lemma any_beq_iff_mem_keys {α : Type} (d : PyDict α) (k : String) :
    (d.any (fun p => p.1 == k)) = true ↔ k ∈ d.map Prod.fst := by
  simp [List.any_eq_true, List.mem_map, beq_iff_eq]

lemma map_fst_replace {α : Type} (d : PyDict α) (k : String) (v : α) :
    (d.map (fun p => if p.1 == k then (p.1, v) else p)).map Prod.fst = d.map Prod.fst := by
  induction d with
  | nil => rfl
  | cons hd tl ih =>
    simp only [List.map_cons, ih, List.cons.injEq, and_true]
    by_cases hk : hd.1 == k <;> simp [hk]

lemma odUpdate_keys {α : Type} (d : PyDict α) (kv : String × α) :
    (odUpdate d kv).map Prod.fst =
      if kv.1 ∈ d.map Prod.fst then d.map Prod.fst else d.map Prod.fst ++ [kv.1] := by
  unfold odUpdate
  by_cases hmem : kv.1 ∈ d.map Prod.fst
  · rw [if_pos ((any_beq_iff_mem_keys d kv.1).mpr hmem), if_pos hmem, map_fst_replace]
  · rw [if_neg (fun h => hmem ((any_beq_iff_mem_keys d kv.1).mp h)), if_neg hmem,
      List.map_append]
    rfl


lemma dictFind_eq_none_of_not_mem {α : Type} (d : PyDict α) (k : String)
    (h : k ∉ d.map Prod.fst) : dictFind d k = none := by
  induction d with
  | nil => rfl
  | cons hd tl ih =>
    simp only [List.map_cons, List.mem_cons, not_or] at h
    show (if hd.1 == k then some hd.2 else dictFind tl k) = none
    rw [if_neg (by simpa using fun he => h.1 he.symm)]
    exact ih h.2

lemma dictFind_replace_self {α : Type} (d : PyDict α) (k : String) (v : α)
    (h : k ∈ d.map Prod.fst) :
    dictFind (d.map (fun p => if p.1 == k then (p.1, v) else p)) k = some v := by
  induction d with
  | nil => simp at h
  | cons hd tl ih =>
    simp only [List.map_cons, List.mem_cons] at h
    simp only [List.map_cons]
    by_cases hbk : hd.1 == k
    · rw [if_pos hbk]
      show (if hd.1 == k then some v else _) = some v
      rw [if_pos hbk]
    · rw [if_neg hbk]
      show (if hd.1 == k then some hd.2 else _) = some v
      rw [if_neg hbk]
      rcases h with h | h
      · exact absurd (by simpa using h.symm) hbk
      · exact ih h

lemma dictFind_replace_ne {α : Type} (d : PyDict α) (k k' : String) (v : α)
    (h : k' ≠ k) :
    dictFind (d.map (fun p => if p.1 == k then (p.1, v) else p)) k' = dictFind d k' := by
  induction d with
  | nil => rfl
  | cons hd tl ih =>
    simp only [List.map_cons]
    by_cases hbk : hd.1 == k
    · rw [if_pos hbk]
      show (if hd.1 == k' then some v else _) = (if hd.1 == k' then some hd.2 else _)
      have : (hd.1 == k') = false := by
        simp only [beq_eq_false_iff_ne]
        exact fun he => h (he.symm.trans (by simpa using hbk))
      rw [this]
      simp only [Bool.false_eq_true, if_false]
      exact ih
    · rw [if_neg hbk]
      show (if hd.1 == k' then some hd.2 else _) = (if hd.1 == k' then some hd.2 else _)
      by_cases hbk' : hd.1 == k'
      · rw [if_pos hbk', if_pos hbk']
      · rw [if_neg hbk', if_neg hbk']
        exact ih

lemma dictFind_append_single_self {α : Type} (d : PyDict α) (k : String) (v : α)
    (h : k ∉ d.map Prod.fst) : dictFind (d ++ [(k, v)]) k = some v := by
  induction d with
  | nil =>
    show (if k == k then some v else dictFind [] k) = some v
    rw [if_pos (by simp)]
  | cons hd tl ih =>
    simp only [List.map_cons, List.mem_cons, not_or] at h
    show (if hd.1 == k then some hd.2 else dictFind (tl ++ [(k, v)]) k) = some v
    rw [if_neg (by simpa using fun he => h.1 he.symm)]
    exact ih h.2

lemma dictFind_append_single_ne {α : Type} (d : PyDict α) (k k' : String) (v : α)
    (h : k' ≠ k) : dictFind (d ++ [(k, v)]) k' = dictFind d k' := by
  induction d with
  | nil =>
    show (if k == k' then some v else dictFind [] k') = none
    rw [if_neg (by simpa using fun he => h he.symm)]
    rfl
  | cons hd tl ih =>
    show (if hd.1 == k' then some hd.2 else dictFind (tl ++ [(k, v)]) k') =
      (if hd.1 == k' then some hd.2 else dictFind tl k')
    by_cases hbk : hd.1 == k'
    · rw [if_pos hbk, if_pos hbk]
    · rw [if_neg hbk, if_neg hbk]
      exact ih

lemma odUpdate_find_self {α : Type} (d : PyDict α) (k : String) (v : α) :
    dictFind (odUpdate d (k, v)) k = some v := by
  unfold odUpdate
  by_cases hmem : k ∈ d.map Prod.fst
  · rw [if_pos ((any_beq_iff_mem_keys d k).mpr hmem)]
    exact dictFind_replace_self d k v hmem
  · rw [if_neg (fun hc => hmem ((any_beq_iff_mem_keys d k).mp hc))]
    exact dictFind_append_single_self d k v hmem

lemma odUpdate_find_ne {α : Type} (d : PyDict α) (k k' : String) (v : α)
    (h : k' ≠ k) : dictFind (odUpdate d (k, v)) k' = dictFind d k' := by
  unfold odUpdate
  by_cases hc : d.any (fun p => p.1 == k)
  · rw [if_pos hc]
    exact dictFind_replace_ne d k k' v h
  · rw [if_neg hc]
    exact dictFind_append_single_ne d k k' v h

lemma dictUpdateAll_find_not_mem {α : Type} (attrs : PyDict α) (d : PyDict α)
    (k : String) (h : k ∉ attrs.map Prod.fst) :
    dictFind (dictUpdateAll d attrs) k = dictFind d k := by
  induction attrs generalizing d with
  | nil => rfl
  | cons hd tl ih =>
    simp only [List.map_cons, List.mem_cons, not_or] at h
    show dictFind (dictUpdateAll (odUpdate d hd) tl) k = _
    rw [ih (odUpdate d hd) h.2, odUpdate_find_ne d hd.1 k hd.2 h.1]

lemma dictUpdateAll_find_of_nodup {α : Type} (attrs : PyDict α) (d : PyDict α)
    (k : String) (v : α) (hnd : (attrs.map Prod.fst).Nodup)
    (h : dictFind attrs k = some v) :
    dictFind (dictUpdateAll d attrs) k = some v := by
  induction attrs generalizing d with
  | nil => simp [dictFind] at h
  | cons hd tl ih =>
    simp only [List.map_cons, List.nodup_cons] at hnd
    show dictFind (dictUpdateAll (odUpdate d (hd.1, hd.2)) tl) k = some v
    by_cases hbk : hd.1 == k
    · have hkeq : hd.1 = k := by simpa using hbk
      have : dictFind (hd :: tl) k = some hd.2 := by
        show (if hd.1 == k then some hd.2 else _) = some hd.2
        rw [if_pos hbk]
      rw [this] at h
      rw [dictUpdateAll_find_not_mem tl _ k (hkeq ▸ hnd.1), hkeq, odUpdate_find_self]
      exact h
    · have : dictFind (hd :: tl) k = dictFind tl k := by
        show (if hd.1 == k then some hd.2 else _) = _
        rw [if_neg hbk]
      rw [this] at h
      exact ih _ hnd.2 h

lemma mem_keys_odUpdate_self {α : Type} (d : PyDict α) (kv : String × α) :
    kv.1 ∈ (odUpdate d kv).map Prod.fst := by
  rw [odUpdate_keys]
  by_cases h : kv.1 ∈ d.map Prod.fst <;> simp [h]

lemma mem_keys_odUpdate_of_mem {α : Type} (d : PyDict α) (kv : String × α)
    (k : String) (h : k ∈ d.map Prod.fst) : k ∈ (odUpdate d kv).map Prod.fst := by
  rw [odUpdate_keys]
  by_cases hc : kv.1 ∈ d.map Prod.fst <;> simp [hc, h]

lemma odUpdate_append_of_not_mem {α : Type} (d : PyDict α) (kv : String × α)
    (h : kv.1 ∉ d.map Prod.fst) : odUpdate d kv = d ++ [kv] := by
  unfold odUpdate
  rw [if_neg (fun hc => h ((any_beq_iff_mem_keys d kv.1).mp hc))]

lemma serializeFieldsAux_find_not_mem (fields : PyDict BaseField)
    (data : PyDict PyValue) (native : Bool) (out : PyDict PyValue) (name : String)
    (h : name ∉ fields.map Prod.fst) :
    dictFind (serializeFieldsAux fields data native out) name = dictFind out name := by
  induction fields generalizing out with
  | nil => rfl
  | cons hd tl ih =>
    obtain ⟨fname, field⟩ := hd
    simp only [List.map_cons, List.mem_cons, not_or] at h
    rw [serializeFieldsAux]
    rw [ih _ h.2]
    split_ifs <;> first | exact odUpdate_find_ne out fname name _ h.1 | rfl

lemma serializeFieldsAux_find (fields : PyDict BaseField) (data : PyDict PyValue)
    (native : Bool) (out : PyDict PyValue) (name : String)
    (hnd : (fields.map Prod.fst).Nodup)
    (hout : dictFind out name = none) :
    dictFind (serializeFieldsAux fields data native out) name =
      (dictFind fields name).bind (fun field => projectedEntry native data name field) := by
  induction fields generalizing out with
  | nil => simpa [dictFind] using hout
  | cons hd tl ih =>
    obtain ⟨fname, field⟩ := hd
    simp only [List.map_cons, List.nodup_cons] at hnd
    rw [serializeFieldsAux]
    by_cases hbn : fname == name
    · have hkeq : fname = name := by simpa using hbn
      subst hkeq
      have hrhs : dictFind ((fname, field) :: tl) fname = some field := by
        show (if fname == fname then some field else _) = some field
        rw [if_pos (by simp)]
      rw [hrhs, Option.some_bind]
      rw [serializeFieldsAux_find_not_mem tl data native _ fname hnd.1]
      simp only [projectedEntry]
      split_ifs <;> first | apply odUpdate_find_self | exact hout
    · have hrhs : dictFind ((fname, field) :: tl) name = dictFind tl name := by
        show (if fname == name then some field else _) = _
        rw [if_neg hbn]
      rw [hrhs]
      have hne : name ≠ fname := fun he => (by simpa using hbn : fname ≠ name) he.symm
      have hout' : ∀ fd : PyValue, dictFind (odUpdate out (fname, fd)) name = none := by
        intro fd
        rw [odUpdate_find_ne out fname name fd hne]
        exact hout
      split_ifs <;> first | exact ih _ hnd.2 (hout' _) | exact ih _ hnd.2 hout

lemma runExports_mem_keys (exports : PyDict ExportFn) (self : PyDict PyValue)
    (out res : PyDict PyValue) (h : runExports exports self out = .ok res)
    (k : String) (hk : k ∈ out.map Prod.fst ∨ k ∈ exports.map Prod.fst) :
    k ∈ res.map Prod.fst := by
  induction exports generalizing out with
  | nil =>
    simp only [runExports, Except.ok.injEq] at h
    rcases hk with hk | hk
    · exact h ▸ hk
    · simp at hk
  | cons hd tl ih =>
    rw [runExports] at h
    cases haw : awaitDirectCall hd.2 self with
    | error e => rw [haw] at h; exact absurd h (by simp)
    | ok v =>
      rw [haw] at h
      refine ih _ h ?_
      rcases hk with hk | hk
      · exact Or.inl (mem_keys_odUpdate_of_mem out (hd.1, v) k hk)
      · simp only [List.map_cons, List.mem_cons] at hk
        rcases hk with hk | hk
        · exact Or.inl (hk ▸ mem_keys_odUpdate_self out (hd.1, v))
        · exact Or.inr hk

lemma runExports_all_async (exports : PyDict ExportFn) (self : PyDict PyValue)
    (out : PyDict PyValue) (h : ∀ p ∈ exports, p.2.isAsync = true) :
    exceptOk (runExports exports self out) = true := by
  induction exports generalizing out with
  | nil => rfl
  | cons hd tl ih =>
    rw [runExports]
    cases hfn : hd.2 with
    | sync f =>
      have hh := h hd (List.mem_cons_self _ _)
      rw [hfn] at hh
      exact absurd hh (by simp [ExportFn.isAsync])
    | async f =>
      show exceptOk (runExports tl self _) = true
      exact ih _ (fun p hp => h p (List.mem_cons_of_mem _ hp))

lemma foldl_assign_fresh {α β : Type} (f : String × β → α)
    (l : List (String × β)) (acc : PyDict α)
    (hfresh : ∀ k ∈ l.map Prod.fst, k ∉ acc.map Prod.fst)
    (hnd : (l.map Prod.fst).Nodup) :
    l.foldl (fun a p => odUpdate a (p.1, f p)) acc =
      acc ++ l.map (fun p => (p.1, f p)) := by
  induction l generalizing acc with
  | nil => simp
  | cons hd tl ih =>
    simp only [List.map_cons, List.nodup_cons] at hnd
    simp only [List.foldl_cons]
    rw [odUpdate_append_of_not_mem acc (hd.1, f hd)
      (hfresh hd.1 (by simp))]
    rw [ih (acc ++ [(hd.1, f hd)]) ?_ hnd.2]
    · simp
    · intro k hk
      simp only [List.map_append, List.mem_append, not_or]
      refine ⟨hfresh k (List.mem_cons_of_mem _ hk), ?_⟩
      simp only [List.map_cons, List.map_nil, List.mem_singleton]
      exact fun he => hnd.1 (he ▸ hk)

lemma dictFind_map_entry {α β : Type} (f : String × α → β) (l : PyDict α) (k : String) :
    dictFind (l.map (fun p => (p.1, f p))) k = (dictFind l k).map (fun v => f (k, v)) := by
  induction l with
  | nil => rfl
  | cons hd tl ih =>
    obtain ⟨k', v⟩ := hd
    simp only [List.map_cons]
    show (if k' == k then some (f (k', v)) else _) =
      (if k' == k then some v else dictFind tl k).map (fun w => f (k, w))
    by_cases h : k' == k
    · have hkeq : k' = k := by simpa using h
      subst hkeq
      rw [if_pos h, if_pos h]
      rfl
    · rw [if_neg h, if_neg h]
      exact ih

lemma _convert_eq_map (fields : PyDict BaseField) (data : PyDict PyValue)
    (native : Bool) (hnd : (fields.map Prod.fst).Nodup) :
    _convert fields data native =
      fields.map (fun p =>
        (p.1, directCall (if native then p.2.to_python else p.2.to_data) (dictGet data p.1))) := by
  unfold _convert
  rw [foldl_assign_fresh
    (fun p => directCall (if native then p.2.to_python else p.2.to_data) (dictGet data p.1))
    fields [] (by simp) hnd]
  rfl

lemma _validate_first_error (pre : PyDict BaseField) (p : String × BaseField)
    (post : PyDict BaseField) (data : PyDict PyValue) (e : String)
    (hpre : ∀ q ∈ pre, q.2.validate (dictGet data q.1) = .ok ())
    (hp : p.2.validate (dictGet data p.1) = .error e) :
    _validate (pre ++ p :: post) data = .error e := by
  induction pre with
  | nil =>
    simp only [List.nil_append]
    rw [_validate, hp]
  | cons hd tl ih =>
    simp only [List.cons_append]
    rw [_validate, hpre hd (List.mem_cons_self _ _)]
    exact ih (fun q hq => hpre q (List.mem_cons_of_mem _ hq))

lemma runExports_find_not_mem (exports : PyDict ExportFn) (self : PyDict PyValue)
    (out res : PyDict PyValue) (name : String)
    (h : name ∉ exports.map Prod.fst) (hr : runExports exports self out = .ok res) :
    dictFind res name = dictFind out name := by
  induction exports generalizing out with
  | nil =>
    simp only [runExports, Except.ok.injEq] at hr
    rw [hr]
  | cons hd tl ih =>
    simp only [List.map_cons, List.mem_cons, not_or] at h
    rw [runExports] at hr
    cases haw : awaitDirectCall hd.2 self with
    | error e => rw [haw] at hr; exact absurd hr (by simp)
    | ok v =>
      rw [haw] at hr
      have hr' : runExports tl self (odUpdate out (hd.1, v)) = .ok res := hr
      rw [ih _ h.2 hr']
      exact odUpdate_find_ne out hd.1 name v h.1

/-! ## Claims -/

/-- C1 (counterexample): a field whose converted value is the empty
string — falsy but not `None` — and whose projection is always-include
is omitted entirely from the serialized output, although the claim says
a falsy value under "always" projection is included as an explicit
empty/null. -/
theorem C1_counterexample :
    serializeFields [("nickname", alwaysEmptyStrField)]
        [("nickname", PyValue.str "ron")] false = [] ∧
    alwaysEmptyStrField.projection = some true ∧
    truthy (_execute alwaysEmptyStrField.to_data (PyValue.str "ron")) = false ∧
    isNone (_execute alwaysEmptyStrField.to_data (PyValue.str "ron")) = false :=
  ⟨rfl, rfl, rfl, rfl⟩

/-- C1 (amended): for every schema field, in both serialization views
the output binds the field's key to its converted value when that value
is truthy and the projection is not "never"; it binds the key to an
explicit `None` when the converted value is exactly `None` and the
projection is "always"; in every other case (falsy value with
"if-present" projection, falsy non-`None` value even with "always"
projection, or "never" projection) the key is omitted entirely. -/
theorem C1_projection_rule (m : ModelInst) (native : Bool) (name : String)
    (d : PyDict PyValue) (hnd : (m._fields.map Prod.fst).Nodup)
    (hname : name ∉ m._exports.map Prod.fst)
    (hs : _serialize m native = .ok d) :
    dictFind d name =
      (dictFind m._fields name).bind
        (fun field => projectedEntry native m._data name field) := by
  unfold _serialize at hs
  rw [runExports_find_not_mem m._exports m._data _ d name hname hs]
  exact serializeFieldsAux_find m._fields m._data native [] name hnd rfl

/-- C1 (witness): the projection rule evaluated on a concrete model. -/
theorem C1_projection_rule_witness :
    dictFind demoProjOut "nickname" =
      (dictFind demoProjModel._fields "nickname").bind
        (fun field => projectedEntry true demoProjModel._data "nickname" field) :=
  C1_projection_rule demoProjModel true "nickname" demoProjOut
    (by decide) (by decide) rfl

/-- C2 (counterexample): with two required fields `age` and `name` and
empty imported data, both fields are invalid, yet `validate` raises only
the first field's error ("age"); the error does not aggregate or name
the second invalid field. -/
theorem C2_counterexample :
    validate demoPerson = Except.error "age" ∧
    (requiredField "name").validate (dictGet demoPerson._data "name") =
      Except.error "name" ∧
    "age" ≠ "name" :=
  ⟨rfl, rfl, by decide⟩

/-- C2 (amended): validation is fail-fast, not collect-all: when every
field before some field validates successfully and that field's
validator raises, `validate` fails with exactly that first error,
regardless of how many later fields are also invalid. -/
theorem C2_fail_fast_first_error (m : ModelInst) (pre : PyDict BaseField)
    (p : String × BaseField) (post : PyDict BaseField) (e : String)
    (hsplit : m._fields = pre ++ p :: post)
    (hpre : ∀ q ∈ pre, q.2.validate (dictGet m._data q.1) = .ok ())
    (hp : p.2.validate (dictGet m._data p.1) = .error e) :
    validate m = .error e := by
  unfold validate
  rw [hsplit]
  exact _validate_first_error pre p post m._data e hpre hp

/-- C2 (witness): the fail-fast rule evaluated on the two-required-field
model with empty data. -/
theorem C2_fail_fast_first_error_witness :
    validate demoPerson = Except.error "age" :=
  C2_fail_fast_first_error demoPerson [] ("age", requiredField "age")
    [("name", requiredField "name")] "age" rfl (by simp) rfl

/-- C3: for a three-level hierarchy A → B → C declaring fields `{a}`,
`{b}`, `{a (override), c}` respectively, the schema built for C has keys
in order `[a, b, c]` and binds key `a` to C's own definition. -/
theorem C3_schema_merge_order (a b c : String) (fA fB fA2 fC : BaseField)
    (hab : a ≠ b) (hac : a ≠ c) (hbc : b ≠ c) :
    (buildFields [buildFields [buildFields [[]] [(a, fA)]] [(b, fB)]]
        [(a, fA2), (c, fC)]).map Prod.fst = [a, b, c] ∧
    dictFind (buildFields [buildFields [buildFields [[]] [(a, fA)]] [(b, fB)]]
        [(a, fA2), (c, fC)]) a = some fA2 := by
  simp [buildFields, dictUpdateAll, odUpdate, dictFind,
    hab, hac, hbc, Ne.symm hab, Ne.symm hac, Ne.symm hbc]

/-- C3 (witness): the hierarchy instantiated with concrete names and
fields, C's override being distinguishable by its projection. -/
theorem C3_schema_merge_order_witness :
    "a" ≠ "b" ∧ "a" ≠ "c" ∧ "b" ≠ "c" ∧
    ((buildFields [buildFields [buildFields [[]] [("a", plainField)]]
        [("b", plainField)]] [("a", alwaysField), ("c", plainField)]).map Prod.fst =
          ["a", "b", "c"] ∧
      dictFind (buildFields [buildFields [buildFields [[]] [("a", plainField)]]
        [("b", plainField)]] [("a", alwaysField), ("c", plainField)]) "a" =
          some alwaysField) :=
  ⟨by decide, by decide, by decide,
    C3_schema_merge_order "a" "b" "c" plainField plainField alwaysField plainField
      (by decide) (by decide) (by decide)⟩

/-- C4 (counterexample): a base declaring `{a, b}` and a derived class
declaring `{c, b (override)}` yield merged keys `[a, b, c]`: the
overridden key `b` keeps the position where the name first appeared,
and is not moved to the overriding declaration's insertion position
(which would give `[a, c, b]`). -/
theorem C4_counterexample :
    demoC4Derived.map Prod.fst = ["a", "b", "c"] ∧
    demoC4Derived.map Prod.fst ≠ ["a", "c", "b"] :=
  ⟨by decide, by decide⟩

/-- C4 (amended): in the merge step used for schema construction,
assigning to a key that is already present replaces its value but keeps
the key list unchanged — the key stays at the position where the name
first appeared — while a new key is appended at the end. -/
theorem C4_override_keeps_position (d : PyDict BaseField) (k : String)
    (f : BaseField) :
    (odUpdate d (k, f)).map Prod.fst =
      (if k ∈ d.map Prod.fst then d.map Prod.fst else d.map Prod.fst ++ [k]) ∧
    dictFind (odUpdate d (k, f)) k = some f :=
  ⟨odUpdate_keys d (k, f), odUpdate_find_self d k f⟩

/-- C5 (counterexample): an instance whose type registers a plain
(synchronous) export method cannot be serialized at all: both `to_data`
and `to_python` fail with a TypeError, because the export step awaits
`func(self)` directly instead of going through `_execute`. -/
theorem C5_counterexample :
    to_data demoSyncExportModel =
      Except.error "TypeError: object is not awaitable" ∧
    to_python demoSyncExportModel =
      Except.error "TypeError: object is not awaitable" :=
  ⟨rfl, rfl⟩

/-- C5 (amended): field conversions are invoked through the uniform
`_execute` contract and may each be synchronous or asynchronous, but
export computations are awaited directly; serialization therefore
succeeds for every model whose export methods are all coroutine
functions, whatever the mix of synchronous and asynchronous field
conversions. -/
theorem C5_async_exports_serialize_ok (m : ModelInst) (native : Bool)
    (h : ∀ p ∈ m._exports, p.2.isAsync = true) :
    exceptOk (_serialize m native) = true :=
  runExports_all_async m._exports m._data _ h

/-- C5 (witness): both serialization views succeed on a model mixing a
synchronous field conversion, an asynchronous field conversion and an
asynchronous export. -/
theorem C5_async_exports_serialize_ok_witness :
    exceptOk (_serialize demoAsyncExportModel true) = true ∧
    exceptOk (_serialize demoAsyncExportModel false) = true :=
  ⟨C5_async_exports_serialize_ok demoAsyncExportModel true (by decide),
   C5_async_exports_serialize_ok demoAsyncExportModel false (by decide)⟩

/-- C6: whenever serialization completes, every name registered in the
type's export map appears among the output keys of both `to_data` and
`to_python`, regardless of the export's value and of any projection
setting on a same-named field. -/
theorem C6_exports_always_included (m : ModelInst) (name : String)
    (d dp : PyDict PyValue) (hmem : name ∈ m._exports.map Prod.fst)
    (hd : to_data m = .ok d) (hp : to_python m = .ok dp) :
    name ∈ d.map Prod.fst ∧ name ∈ dp.map Prod.fst :=
  ⟨runExports_mem_keys m._exports m._data _ d hd name (Or.inr hmem),
   runExports_mem_keys m._exports m._data _ dp hp name (Or.inr hmem)⟩

/-- C6 (witness): the export name appears in the output even though the
same-named field is never-projected and the export value is falsy. -/
theorem C6_exports_always_included_witness :
    to_data demoExportOverlapModel = Except.ok demoExportOverlapOut ∧
    ("n" ∈ demoExportOverlapOut.map Prod.fst ∧
     "n" ∈ demoExportOverlapOut.map Prod.fst) :=
  ⟨rfl, C6_exports_always_included demoExportOverlapModel "n"
    demoExportOverlapOut demoExportOverlapOut (by decide) rfl rfl⟩

/-- C7: `import_data` rejects every non-dict payload with the
`Cannot import data not as dict` error, raised before any mutation, so
the stored data is left completely unchanged. -/
theorem C7_import_rejects_non_dict (fields : PyDict BaseField)
    (cur : PyDict PyValue) (payload : PyValue) (h : isDict payload = false) :
    import_data fields cur payload = (cur, some "Cannot import data not as dict") := by
  cases payload <;> simp_all [import_data, isDict]

/-- C7 (witness): importing an integer payload fails and leaves the
stored data untouched. -/
theorem C7_import_rejects_non_dict_witness :
    isDict (PyValue.int 7) = false ∧
    import_data [("age", plainField)] [("age", PyValue.int 3)] (PyValue.int 7) =
      ([("age", PyValue.int 3)], some "Cannot import data not as dict") :=
  ⟨rfl, C7_import_rejects_non_dict [("age", plainField)]
    [("age", PyValue.int 3)] (PyValue.int 7) rfl⟩

/-- C8 (counterexample): equality as implemented is not symmetric: an
instance with an empty data store compares equal to a same-type instance
holding field data (no present field disagrees from the left operand's
view), while the comparison in the other direction is false. -/
theorem C8_counterexample :
    modelEq demoEqEmpty demoEqFull = true ∧
    modelEq demoEqFull demoEqEmpty = false ∧
    modelEq demoEqEmpty demoEqFull ≠ modelEq demoEqFull demoEqEmpty :=
  ⟨rfl, rfl, by decide⟩

/-- C8 (amended): two instances of the same concrete type compare equal
exactly when every schema field with present data in the LEFT operand
compares equal between the two instances; fields present only in the
right operand are not examined, so the relation is not symmetric. -/
theorem C8_eq_left_present_fields (a b : ModelInst) :
    modelEq a b = true ↔
      ∀ k ∈ a._fields.map Prod.fst, k ∈ a._data.map Prod.fst →
        pyBeq (dictGet a._data k) (dictGet b._data k) = true := by
  simp only [modelEq, modelIter, modelGetattr, List.all_eq_true, List.mem_filter]
  constructor
  · intro h k hk hkd
    exact h k ⟨hk, by simpa using hkd⟩
  · rintro h k ⟨hk, hkd⟩
    exact h k hk (by simpa using hkd)

/-- C8 (witness): the characterization evaluated on a concrete pair. -/
theorem C8_eq_left_present_fields_witness :
    modelEq demoEqFull demoEqFull = true :=
  (C8_eq_left_present_fields demoEqFull demoEqFull).mpr (by decide)

/-- C9 (counterexample): for a type declared without a `Meta` block the
options carry `name = None` — not the type's own name (for a type named
"Person", the stored name is `None`, not `"Person"`). -/
theorem C9_counterexample :
    modelOptionsInit Option.none =
      [("name", PyValue.none), ("namespace", PyValue.none)] ∧
    dictFind (modelOptionsInit Option.none) "name" ≠ some (PyValue.str "Person") :=
  ⟨rfl, fun h => PyValue.noConfusion (Option.some.inj h)⟩

/-- C9 (amended): without a `Meta` block the options default to
`name = None` and `namespace = None`; when a block is present, its
public attributes are copied name-by-name onto the options. -/
theorem C9_options_defaults_and_copy :
    modelOptionsInit Option.none =
      [("name", PyValue.none), ("namespace", PyValue.none)] ∧
    ∀ (attrs : PyDict PyValue) (k : String) (v : PyValue),
      (attrs.map Prod.fst).Nodup → dictFind attrs k = some v →
      dictFind (modelOptionsInit (some attrs)) k = some v := by
  refine ⟨rfl, fun attrs k v hnd h => ?_⟩
  simp only [modelOptionsInit]
  exact dictUpdateAll_find_of_nodup attrs _ k v hnd h

/-- C9 (witness): a `Meta` attribute is copied onto the options. -/
theorem C9_options_defaults_and_copy_witness :
    dictFind (modelOptionsInit (some demoMetaAttrs)) "db_name" =
      some (PyValue.str "persons") :=
  C9_options_defaults_and_copy.2 demoMetaAttrs "db_name"
    (PyValue.str "persons") (by decide) rfl

/-- C10: after a successful `import_data` the key set of the stored data
equals exactly the schema's field names in schema order: unknown payload
keys are dropped, every schema field absent from the merged input is
stored as its `to_python` conversion of `None`, and iteration
(`__iter__`, hence `items`) enumerates every schema field. -/
theorem C10_import_schema_keys (fields : PyDict BaseField) (cur : PyDict PyValue)
    (entries : PyDict PyValue) (hnd : (fields.map Prod.fst).Nodup) :
    ((import_data fields cur (.dict entries)).1.map Prod.fst = fields.map Prod.fst) ∧
    (∀ (name : String) (field : BaseField), dictFind fields name = some field →
      name ∉ (dictUpdateAll cur entries).map Prod.fst →
      dictFind (import_data fields cur (.dict entries)).1 name =
        some (directCall field.to_python PyValue.none)) ∧
    (∀ exps : PyDict ExportFn,
      modelIter ⟨fields, exps, (import_data fields cur (.dict entries)).1⟩ =
        fields.map Prod.fst) := by
  have hconv : (import_data fields cur (.dict entries)).1 =
      fields.map (fun p =>
        (p.1, directCall p.2.to_python (dictGet (dictUpdateAll cur entries) p.1))) := by
    show _convert fields (dictUpdateAll cur entries) true = _
    rw [_convert_eq_map fields _ true hnd]
    rfl
  have hkeys : (import_data fields cur (.dict entries)).1.map Prod.fst =
      fields.map Prod.fst := by
    rw [hconv, List.map_map]
    rfl
  refine ⟨hkeys, fun name field hf hnm => ?_, fun exps => ?_⟩
  · rw [hconv, dictFind_map_entry
      (fun p => directCall p.2.to_python (dictGet (dictUpdateAll cur entries) p.1))
      fields name, hf]
    show some (directCall field.to_python (dictGet (dictUpdateAll cur entries) name)) = _
    rw [show dictGet (dictUpdateAll cur entries) name = PyValue.none from by
      rw [dictGet, dictFind_eq_none_of_not_mem _ _ hnm]; rfl]
  · show (fields.map Prod.fst).filter _ = fields.map Prod.fst
    rw [List.filter_eq_self]
    intro k hk
    rw [hkeys]
    simpa using hk

/-- C10 (witness): importing a payload with one schema key and one
unknown key yields exactly the schema's keys, the unknown key dropped
and the absent field stored as the conversion of `None`. -/
theorem C10_import_schema_keys_witness :
    ((import_data demoImportFields [] (PyValue.dict demoImportEntries)).1.map Prod.fst =
      ["age", "name"]) ∧
    dictFind (import_data demoImportFields [] (PyValue.dict demoImportEntries)).1 "age" =
      some PyValue.none :=
  ⟨(C10_import_schema_keys demoImportFields [] demoImportEntries (by decide)).1.trans rfl,
   ((C10_import_schema_keys demoImportFields [] demoImportEntries (by decide)).2.1
      "age" plainField rfl (by decide)).trans rfl⟩
